import Mathlib

/-!
Verification of the IOT_REPO_BRAIN_MUSIC_RESEARCH firmware core.

This file shallowly embeds the sensor-node and gateway firmware
(`ESP32/step_detection_sketch/step_detection_sketch.ino` and
`Unit Tests/receiver_sketch/receiver_sketch.ino`) and proves properties of
the embedding.  Conventions:

* `uint32_t` arithmetic is `Nat` with an explicit `% 2^32` wherever the C
  value can wrap (the running interval sum, interval subtraction).
* `int` / `int16_t` values are `Int`; the `int16_t` cast used for control
  replies is modelled by `int16ofInt` (two's-complement wrap).
* `float` computations are modelled as exact rationals (`ℚ`): the
  properties below concern which entries are averaged and the guard
  structure of the code, not IEEE rounding.  The guard `avg == 0` is exact
  in both models because `0.0` is exactly representable.
* Serial output is modelled as the list of printed lines (`List String`),
  in print order; the per-step telemetry line is modelled as a `StepOut`
  record holding the four printed fields.
-/

namespace BrainMusic

/-- `2^32`, the modulus of `uint32_t` arithmetic. -/
def U32 : ℕ := 4294967296

/-- `MAX_WINDOW_SIZE` from the gateway sketch. -/
def MAX_WINDOW_SIZE : ℕ := 20

/-- `StepEvent` (packed): `uint32_t intervalMS; uint8_t footId`. -/
structure StepEvent where
  intervalMS : ℕ
  footId : ℕ
deriving Repr, DecidableEq

/-- Gateway circular buffer `class StepBuffer`: a 20-slot array of
`StepEvent`, a `count` and a `head` index. -/
structure StepBuffer where
  history : List StepEvent
  count : ℕ
  head : ℕ
deriving Repr, DecidableEq

/-- Well-formedness of a buffer state: the backing array has exactly
`MAX_WINDOW_SIZE` slots and the indices are in range (invariants the C
object maintains by construction). -/
def StepBuffer.wf (b : StepBuffer) : Prop :=
  b.history.length = MAX_WINDOW_SIZE ∧ b.count ≤ MAX_WINDOW_SIZE ∧ b.head < MAX_WINDOW_SIZE

/-- `StepBuffer::add`: `history[head] = s; head = (head+1) % 20;
if (count < 20) count++;`. -/
def StepBuffer.add (b : StepBuffer) (s : StepEvent) : StepBuffer :=
  { history := b.history.set b.head s
    head := (b.head + 1) % MAX_WINDOW_SIZE
    count := if b.count < MAX_WINDOW_SIZE then b.count + 1 else b.count }

/-- `StepBuffer::clear`: `count = 0; head = 0;` (the array is not erased). -/
def StepBuffer.clear (b : StepBuffer) : StepBuffer :=
  { b with count := 0, head := 0 }

/-- `StepBuffer::trimToSize`: `if (newSize < count) count = newSize;`. -/
def StepBuffer.trimToSize (b : StepBuffer) (newSize : ℤ) : StepBuffer :=
  if newSize < (b.count : ℤ) then { b with count := newSize.toNat } else b

/-- The all-zero buffer the gateway boots with. -/
def StepBuffer.empty : StepBuffer :=
  { history := List.replicate MAX_WINDOW_SIZE ⟨0, 0⟩, count := 0, head := 0 }

/-- A buffer obtained by `add`ing the given events, oldest first, to the
boot state (a reachable buffer state). -/
def StepBuffer.ofList (l : List StepEvent) : StepBuffer :=
  l.foldl StepBuffer.add StepBuffer.empty

/-- The summation loop of `StepBuffer::getAverageBPM`:
`currentIdx = (currentIdx - 1 + 20) % 20; totalInterval += history[currentIdx].intervalMS`
iterated `k` times; `totalInterval` is a `uint32_t`, hence the `% U32`. -/
def sumLoop (hist : List StepEvent) (idx : ℕ) (total : ℕ) : ℕ → ℕ
  | 0 => total
  | k + 1 =>
      let idx' := (idx + (MAX_WINDOW_SIZE - 1)) % MAX_WINDOW_SIZE
      sumLoop hist idx' ((total + (hist.getD idx' ⟨0, 0⟩).intervalMS) % U32) k

/-- The intervals the summation loop visits, newest first (specification
companion of `sumLoop`, walking the same indices). -/
def collectLoop (hist : List StepEvent) (idx : ℕ) : ℕ → List ℕ
  | 0 => []
  | k + 1 =>
      let idx' := (idx + (MAX_WINDOW_SIZE - 1)) % MAX_WINDOW_SIZE
      (hist.getD idx' ⟨0, 0⟩).intervalMS :: collectLoop hist idx' k

/-- `effectiveN` as computed by `getAverageBPM`:
`(n < count) ? n : count` (`n` is the C `int` argument). -/
def StepBuffer.effectiveN (b : StepBuffer) (n : ℤ) : ℤ :=
  if n < (b.count : ℤ) then n else (b.count : ℤ)

/-- The entries `getAverageBPM n` actually walks over: the
`effectiveN` most recent entries, newest first. -/
def StepBuffer.averagedEntries (b : StepBuffer) (n : ℤ) : List ℕ :=
  collectLoop b.history b.head (b.effectiveN n).toNat

/-- `StepBuffer::getAverageBPM` (receiver sketch):
count==0 -> 0; effectiveN = min(n,count); effectiveN==0 -> 0;
sum the `effectiveN` most recent intervals into a `uint32_t`;
`avg = (float)totalInterval / effectiveN; if (avg == 0) return 0.0;
return 60000.0 / avg;`. -/
def StepBuffer.getAverageBPM (b : StepBuffer) (n : ℤ) : ℚ :=
  if b.count = 0 then 0
  else
    let effectiveN := b.effectiveN n
    if effectiveN = 0 then 0
    else
      let totalInterval := sumLoop b.history b.head 0 effectiveN.toNat
      let avg : ℚ := (totalInterval : ℚ) / (effectiveN : ℚ)
      if avg = 0 then 0 else 60000 / avg

/-- The value of `getAverageBPM` as a function of the walked entries:
if no entry is walked the result is 0, else the (wrapped) sum decides
between the 0 guard and `60000 / mean`. -/
def bpmOfIntervals (l : List ℕ) : ℚ :=
  if l.length = 0 then 0
  else
    let s := l.sum % U32
    if (s : ℚ) / (l.length : ℚ) = 0 then 0
    else 60000 / ((s : ℚ) / (l.length : ℚ))

/-! ## Gateway session state and serial command handlers
(receiver sketch, globals + `handleReset` / `handleStart` /
`handleSetWindow` / `handleSetStride` and the step branch of `loop`). -/

/-- The gateway's mutable globals that the session logic touches. -/
structure GatewayState where
  smoothingWindow : ℤ
  updateStride : ℤ
  sessionStarted : Bool
  sessionStarting : Bool
  sessionStartTime : ℕ
  stepCounter : ℤ
  lastCalculatedBPM : ℚ
  lastStepRecvTime : ℕ
  stepHistory : StepBuffer
deriving Repr, DecidableEq

/-- Boot values of the gateway globals. -/
def GatewayState.boot : GatewayState :=
  { smoothingWindow := 3, updateStride := 1, sessionStarted := false
    sessionStarting := true, sessionStartTime := 0, stepCounter := 0
    lastCalculatedBPM := 0, lastStepRecvTime := 0
    stepHistory := StepBuffer.empty }

/-- `handleReset`: `sessionStarting = true; println("ACK,RESET")`. -/
def handleReset (s : GatewayState) : GatewayState × List String :=
  ({ s with sessionStarting := true }, ["ACK,RESET"])

/-- `handleStart`: no-op without reply unless `sessionStarting`; otherwise
clear the history, flip the session flags, record the start time, reset
`stepCounter` and `lastCalculatedBPM`, and reply `ACK,START`. -/
def handleStart (now : ℕ) (s : GatewayState) : GatewayState × List String :=
  if !s.sessionStarting then (s, [])
  else
    ({ s with stepHistory := s.stepHistory.clear
              sessionStarting := false
              sessionStarted := true
              sessionStartTime := now
              stepCounter := 0
              lastCalculatedBPM := 0 }, ["ACK,START"])

/-- `handleSetWindow`, from the parsed integer argument onward (`val` is
the result of Arduino `substring(comma+1).toInt()`; the comma-less early
return happens upstream): accepted iff `val > 0 && val <= 20`, in which
case the window is set, `updateStride` is clamped down to the window if it
exceeded it, the history is trimmed, and `ACK,WINDOW,<n>` is printed. -/
def handleSetWindow (val : ℤ) (s : GatewayState) : GatewayState × List String :=
  if 0 < val ∧ val ≤ 20 then
    let stride := if s.updateStride > val then val else s.updateStride
    ({ s with smoothingWindow := val
              updateStride := stride
              stepHistory := s.stepHistory.trimToSize val },
     [("ACK,WINDOW,") ++ toString val])
  else (s, [])

/-- `handleSetStride`, from the parsed integer argument onward: accepted
iff `val > 0 && val <= smoothingWindow`. -/
def handleSetStride (val : ℤ) (s : GatewayState) : GatewayState × List String :=
  if 0 < val ∧ val ≤ s.smoothingWindow then
    ({ s with updateStride := val }, [("ACK,STRIDE,") ++ toString val])
  else (s, [])

/-- The four fields of the per-step telemetry line
`<now>, <foot>, <instantBPM>, <avgBPM>` (plus the internal `interval`
local the line is computed from). -/
structure StepOut where
  interval : ℕ
  foot : ℕ
  instantBpm : ℚ
  avgBpm : ℚ
deriving Repr, DecidableEq

/-- `instantBPM = (interval > 0) ? 60000.0/interval : 0.0`. -/
def instantBpmOf (interval : ℕ) : ℚ :=
  if 0 < interval then 60000 / (interval : ℚ) else 0

/-- The step branch of the gateway `loop` (type == MSG_STEP), given the
snapshot `e` of `currentStep`: if `sessionStarted`, the step only seeds
timing (interval forced to 0, nothing added to the buffer) and clears
`sessionStarted`; otherwise the step is pushed into the circular buffer,
`stepCounter` advances, and the average BPM is recomputed only on every
`updateStride`-th step (otherwise the cached value is reported). -/
def processStep (now : ℕ) (e : StepEvent) (s : GatewayState) : GatewayState × StepOut :=
  if s.sessionStarted then
    ({ s with sessionStarted := false, lastStepRecvTime := now },
     { interval := 0, foot := e.footId, instantBpm := instantBpmOf 0, avgBpm := 0 })
  else
    let s1 := { s with lastStepRecvTime := now
                       stepHistory := s.stepHistory.add e
                       stepCounter := s.stepCounter + 1 }
    if s1.stepCounter % s.updateStride = 0 then
      let bpm := s1.stepHistory.getAverageBPM s.smoothingWindow
      ({ s1 with lastCalculatedBPM := bpm },
       { interval := e.intervalMS, foot := e.footId
         instantBpm := instantBpmOf e.intervalMS, avgBpm := bpm })
    else
      (s1, { interval := e.intervalMS, foot := e.footId
             instantBpm := instantBpmOf e.intervalMS, avgBpm := s.lastCalculatedBPM })

/-! ## Wire protocol codec and the gateway ESP-NOW receive callback

`Packet` is packed: 1 tag byte + a 5-byte union (`step` = u32 LE + u8,
`bpm` = i8, `ctrl` = u8 + i16 LE), so `sizeof(Packet) = 6` and
`sizeof(StepEvent) = 5`.  Buffers are byte lists (little-endian, as on the
ESP32). -/

/-- `sizeof(Packet)` = 1 (tag) + 5 (largest union member `step`). -/
def sizeofPacket : ℕ := 6

/-- `sizeof(StepEvent)` = 4 + 1 (packed). -/
def sizeofStepEvent : ℕ := 5

/-- Little-endian `uint32_t` from four bytes. -/
def u32ofBytes (b0 b1 b2 b3 : ℕ) : ℕ :=
  b0 + 256 * b1 + 65536 * b2 + 16777216 * b3

/-- Two's-complement reading of a 16-bit little-endian value. -/
def int16ofBytes (lo hi : ℕ) : ℤ :=
  let u := lo % 256 + 256 * (hi % 256)
  if u < 32768 then (u : ℤ) else (u : ℤ) - 65536

/-- Two's-complement reading of an `int8_t` byte. -/
def int8ofByte (b : ℕ) : ℤ :=
  if b % 256 < 128 then ((b % 256 : ℕ) : ℤ) else ((b % 256 : ℕ) : ℤ) - 256

/-- Two's-complement `int16_t` wrap of an integer (the `(int16_t)` casts). -/
def int16ofInt (x : ℤ) : ℤ :=
  (x + 32768) % 65536 - 32768

/-- Bytes of an `int16_t` value, little-endian two's complement. -/
def bytesOfInt16 (x : ℤ) : ℕ × ℕ :=
  let u := (x % 65536).toNat
  (u % 256, u / 256)

/-- The raw `StepEvent` read out of a 5-byte (or the first 5 payload
bytes of a) buffer: `intervalMS` little-endian at offsets 0..3, `footId`
at offset 4. -/
def decodeStepEvent (data : List ℕ) : StepEvent :=
  { intervalMS := u32ofBytes (data.getD 0 0) (data.getD 1 0) (data.getD 2 0) (data.getD 3 0)
    footId := data.getD 4 0 }

/-- The shared fields written by the gateway's `onDataRecv` callback. -/
structure GatewayShared where
  currentStep : StepEvent
  lastMsgType : ℕ
  messageRecv : Bool
  lastDelta : ℤ
deriving Repr, DecidableEq

/-- Boot values of the gateway shared fields. -/
def GatewayShared.boot : GatewayShared :=
  { currentStep := ⟨0, 0⟩, lastMsgType := 0, messageRecv := false, lastDelta := 0 }

/-- The gateway `onDataRecv` callback on a received byte buffer.
`len == sizeof(Packet)`: dispatch on the tag byte — `MSG_STEP (1)` and
`MSG_BPM_DELTA (2)` write the shared fields; `MSG_CMD (3)` immediately
prints `ACK,CAL_WEIGHT,<arg>` or `ERR,CAL_WEIGHT` when the echoed `cmd`
is `CMD_CAL_WEIGHT (1)` and nothing otherwise, touching no shared state.
An unknown tag falls through to the legacy `len == sizeof(StepEvent)`
check, which cannot hold for a 6-byte buffer, so the packet is dropped.
A 5-byte buffer is read as a raw legacy `StepEvent`.  Anything else is
ignored. -/
def onDataRecvG (data : List ℕ) (sh : GatewayShared) : GatewayShared × List String :=
  if data.length = sizeofPacket then
    let ty := data.getD 0 0
    if ty = 1 then
      ({ sh with currentStep := decodeStepEvent (data.drop 1)
                 lastMsgType := 1, messageRecv := true }, [])
    else if ty = 2 then
      ({ sh with lastDelta := int8ofByte (data.getD 1 0)
                 lastMsgType := 2, messageRecv := true }, [])
    else if ty = 3 then
      let cmd := data.getD 1 0
      let arg := int16ofBytes (data.getD 2 0) (data.getD 3 0)
      if cmd = 1 then
        if 0 ≤ arg then (sh, [("ACK,CAL_WEIGHT,") ++ toString arg])
        else (sh, ["ERR,CAL_WEIGHT"])
      else (sh, [])
    else
      -- unknown tag: control reaches the legacy length check, which a
      -- 6-byte buffer cannot satisfy
      if data.length = sizeofStepEvent then
        ({ sh with currentStep := decodeStepEvent data
                   lastMsgType := 1, messageRecv := true }, [])
      else (sh, [])
  else if data.length = sizeofStepEvent then
    ({ sh with currentStep := decodeStepEvent data
               lastMsgType := 1, messageRecv := true }, [])
  else (sh, [])

/-! ## Sensor node: calibration and control processing
(step detection sketch: `calibrateWeight`, `sendControlAck`,
`processControlIfPending`). -/

/-- The `ctrl` union member: `uint8_t cmd; int16_t arg`. -/
structure Ctrl where
  cmd : ℕ
  arg : ℤ
deriving Repr, DecidableEq

/-- The sensor node's mutable detection tuning. -/
structure SensorCal where
  threshold : ℤ
  pressureBuffer : ℤ
deriving Repr, DecidableEq

/-- Boot values: `threshold = 1200; pressureBuffer = 600`. -/
def SensorCal.boot : SensorCal := ⟨1200, 600⟩

/-- `calibrateWeight(samples, delayMs, margin, minThresh)`: the code reads
both sensors `samples` times; we pass those readings as the lists `rs`
and `ls` (`rs.length` plays the role of `samples`, and the two lists have
equal length since the loop reads both sensors together).  Averages each
side with integer division, takes the larger average as `baseline`, sets
`threshold = max(minThresh, baseline - margin)` and
`pressureBuffer = max(200, newThresh / 2)`, returning the new threshold. -/
def calibrateWeight (rs ls : List ℕ) (margin minThresh : ℤ) (_st : SensorCal) :
    SensorCal × ℤ :=
  let samples := rs.length
  let avgR : ℕ := rs.sum / samples
  let avgL : ℕ := ls.sum / samples
  let baseline : ℤ := max (avgR : ℤ) (avgL : ℤ)
  let newThresh := max minThresh (baseline - margin)
  ({ threshold := newThresh, pressureBuffer := max 200 (newThresh / 2) }, newThresh)

/-- `processControlIfPending` on a snapshot `p` of the pending control
packet: for `CMD_CAL_WEIGHT (1)` replace a non-positive margin with 150,
calibrate, and ack with the new threshold; any other command is answered
with `arg = -1` echoing the command.  Both replies go through the
`(int16_t)` cast of `sendControlAck`. -/
def processControl (p : Ctrl) (rs ls : List ℕ) (st : SensorCal) : SensorCal × Ctrl :=
  if p.cmd = 1 then
    let margin := if p.arg ≤ 0 then 150 else p.arg
    let r := calibrateWeight rs ls margin 300 st
    (r.1, { cmd := 1, arg := int16ofInt r.2 })
  else
    (st, { cmd := p.cmd, arg := int16ofInt (-1) })

/-- `sendControlAck` / `sendControl` on the wire: a zero-initialized
`Packet` with tag `MSG_CMD (3)`, `cmd` at offset 1, the `int16_t arg`
little-endian at offsets 2..3, and the unused union bytes 0. -/
def encodeCtrlPacket (cmd : ℕ) (arg : ℤ) : List ℕ :=
  [3, cmd % 256, (bytesOfInt16 arg).1, (bytesOfInt16 arg).2, 0, 0]

/-! ## Sensor node: step detection
(step detection sketch `loop`, lines after the FSR filtering: flag reset,
per-foot threshold crossing, refractory guard and packet send). -/

/-- A step packet as sent on the wire (`MSG_STEP` payload). -/
structure StepPkt where
  intervalMS : ℕ
  footId : ℕ
deriving Repr, DecidableEq

/-- Sensor-node detection state across loop iterations. -/
structure DetectState where
  rightFlag : Bool
  leftFlag : Bool
  lastStepTime : ℕ
  lastStepSentTime : ℕ
deriving Repr, DecidableEq

/-- Boot detection state: both flags false, both timestamps 0. -/
def DetectState.boot : DetectState := ⟨false, false, 0, 0⟩

/-- `uint32_t` subtraction `a - b` (timestamps are kept `< U32`). -/
def u32sub (a b : ℕ) : ℕ :=
  (a + (U32 - b % U32)) % U32

/-- One loop iteration's inputs: the two filtered FSR values and `now`. -/
structure CycleIn where
  rv : ℤ
  lv : ℤ
  now : ℕ
deriving Repr, DecidableEq

/-- One loop iteration's observable detection outcome: the two threshold
crossing conditions and the (at most one) step packet sent. -/
structure CycleOut where
  firedR : Bool
  firedL : Bool
  sent : Option StepPkt
deriving Repr, DecidableEq

/-- One iteration of the detection part of the sensor `loop`:
flag reset (`filtered <= threshold - pressureBuffer` clears the foot's
flag), per-foot crossing detection (right evaluated first, the left
branch overwriting `stepFootId`), then the refractory guard and the
single `sendPacket` call.  The C code's conditional block is rendered by
gating the timestamp updates and the send on the same `send` condition. -/
def detectCycle (thr buf : ℤ) (i : CycleIn) (st : DetectState) :
    DetectState × CycleOut :=
  let rf1 := if i.rv ≤ thr - buf then false else st.rightFlag
  let lf1 := if i.lv ≤ thr - buf then false else st.leftFlag
  let firedR := !rf1 && decide (thr < i.rv)
  let rf2 := rf1 || firedR
  let firedL := !lf1 && decide (thr < i.lv)
  let lf2 := lf1 || firedL
  let stepDetected := firedR || firedL
  let stepFootId : ℕ := if firedL then 2 else if firedR then 1 else 0
  let send := stepDetected && decide (120 ≤ u32sub i.now st.lastStepSentTime)
  ({ rightFlag := rf2, leftFlag := lf2
     lastStepTime := if send then i.now % U32 else st.lastStepTime
     lastStepSentTime := if send then i.now % U32 else st.lastStepSentTime },
   { firedR := firedR, firedL := firedL
     sent := if send then some ⟨u32sub i.now st.lastStepTime, stepFootId⟩ else none })

/-- The detection machine run over a list of loop inputs. -/
def detectRun (thr buf : ℤ) (st : DetectState) : List CycleIn → List CycleOut
  | [] => []
  | i :: is =>
      let p := detectCycle thr buf i st
      p.2 :: detectRun thr buf p.1 is

/-- The single-foot hysteresis step: reset the contact flag when the
value drops to `threshold - pressureBuffer` or below, then fire when the
flag is clear and the value exceeds `threshold`; firing sets the flag. -/
def hystStep (thr buf : ℤ) (flag : Bool) (v : ℤ) : Bool × Bool :=
  let f1 := if v ≤ thr - buf then false else flag
  let fired := !f1 && decide (thr < v)
  (f1 || fired, fired)

/-- The single-foot hysteresis machine run over a list of filtered
values, returning the per-cycle firing flags. -/
def hystRun (thr buf : ℤ) (flag : Bool) : List ℤ → List Bool
  | [] => []
  | v :: vs =>
      let p := hystStep thr buf flag v
      p.2 :: hystRun thr buf p.1 vs

/-! ## Gateway host-command dispatch (`processSerialCommands`)

Host lines are modelled as `List Char`; `startsWithL` is Arduino
`String::startsWith`, and the integer after the first comma (Arduino
`substring(commaIndex+1).toInt()`) is passed in as `parsedArg` rather
than re-parsed at the character level.  `ok` is the boolean result of
`esp_now_send` inside `sendControl`. -/

/-- Arduino `String::startsWith` on character lists. -/
def startsWithL : List Char → List Char → Bool
  | _, [] => true
  | [], _ :: _ => false
  | c :: cs, p :: ps => c == p && startsWithL cs ps

/-- `handleCalibrateWeight`: default margin 150, replaced by the parsed
argument when a comma is present and the parsed value is positive; sends
`Control(CMD_CAL_WEIGHT, margin)` and prints `ACK,CAL_WEIGHT` when
`sendControl` succeeded, `ERR,CAL_WEIGHT` when it failed.  Returns the
dispatched control packet and the printed lines. -/
def handleCalibrateWeight (hasComma : Bool) (parsedArg : ℤ) (ok : Bool) :
    Ctrl × List String :=
  let margin := if hasComma then (if parsedArg ≤ 0 then 150 else parsedArg) else 150
  (⟨1, margin⟩, [if ok then "ACK,CAL_WEIGHT" else "ERR,CAL_WEIGHT"])

/-- One trimmed line of `processSerialCommands`: dispatch on the command
text; a `CAL_WEIGHT…` line runs `handleCalibrateWeight` and then
immediately prints `ACK,CAL_WEIGHT,DISPATCHED`.  The third component is
the control packet handed to the radio, if any. -/
def processHostLine (line : List Char) (parsedArg : ℤ) (ok : Bool) (now : ℕ)
    (s : GatewayState) : GatewayState × List String × Option Ctrl :=
  if line = (("RESET").toList) then
    let r := handleReset s
    (r.1, r.2, none)
  else if line = (("START").toList) then
    let r := handleStart now s
    (r.1, r.2, none)
  else if startsWithL line (("SET_WINDOW,").toList) then
    let r := handleSetWindow parsedArg s
    (r.1, r.2, none)
  else if startsWithL line (("SET_STRIDE,").toList) then
    let r := handleSetStride parsedArg s
    (r.1, r.2, none)
  else if startsWithL line (("CAL_WEIGHT").toList) then
    let r := handleCalibrateWeight (line.contains ',') parsedArg ok
    (s, r.2 ++ ["ACK,CAL_WEIGHT,DISPATCHED"], some r.1)
  else
    (s, [], none)

/-! ## Lemmas. -/

lemma collectLoop_length (hist : List StepEvent) (idx k : ℕ) :
    (collectLoop hist idx k).length = k := by
  induction k generalizing idx with
  | zero => rfl
  | succ k ih => simp [collectLoop, ih]

lemma sumLoop_eq_collect (hist : List StepEvent) (k : ℕ) :
    ∀ idx total, total < U32 →
      sumLoop hist idx total k = (total + (collectLoop hist idx k).sum) % U32 := by
  induction k with
  | zero =>
      intro idx total ht
      simp [sumLoop, collectLoop, Nat.mod_eq_of_lt ht]
  | succ k ih =>
      intro idx total ht
      rw [sumLoop, collectLoop]
      rw [ih _ _ (Nat.mod_lt _ (by norm_num [U32]))]
      simp only [List.sum_cons]
      rw [Nat.mod_add_mod, Nat.add_assoc]

/-- Characterization of `getAverageBPM`: it is `bpmOfIntervals` applied to
exactly the entries it walks (the `effectiveN` most recent ones, newest
first).  Holds for every buffer state and every `int` argument `n`. -/
lemma getAverageBPM_eq (b : StepBuffer) (n : ℤ) :
    b.getAverageBPM n = bpmOfIntervals (b.averagedEntries n) := by
  unfold StepBuffer.getAverageBPM bpmOfIntervals StepBuffer.averagedEntries
  by_cases h0 : b.count = 0
  · simp only [h0, if_true]
    have he : b.effectiveN n = if n < 0 then n else 0 := by
      simp [StepBuffer.effectiveN, h0]
    by_cases hn : n < 0
    · have : (b.effectiveN n).toNat = 0 := by
        rw [he]; simp [hn]; omega
      simp [this, collectLoop]
    · have : (b.effectiveN n).toNat = 0 := by rw [he]; simp [hn]
      simp [this, collectLoop]
  · simp only [h0, if_false]
    set eN := b.effectiveN n with heN
    by_cases hz : eN = 0
    · simp only [hz, if_true]
      simp [collectLoop]
    · simp only [hz, if_false]
      by_cases hneg : eN < 0
      · -- negative effectiveN: the loop body never runs, total = 0, avg = 0
        have ht : eN.toNat = 0 := Int.toNat_of_nonpos (le_of_lt hneg)
        rw [ht]
        simp [sumLoop, collectLoop]
      · -- the interesting case: 1 ≤ effectiveN
        have hpos : 0 < eN := lt_of_le_of_ne (not_lt.mp hneg) (Ne.symm hz)
        have hlen : (collectLoop b.history b.head eN.toNat).length = eN.toNat :=
          collectLoop_length _ _ _
        have hne : eN.toNat ≠ 0 := by omega
        have hcast : ((eN.toNat : ℚ)) = (eN : ℚ) := by
          exact_mod_cast Int.toNat_of_nonneg (le_of_lt hpos)
        rw [sumLoop_eq_collect _ _ _ _ (by norm_num [U32])]
        simp only [Nat.zero_add, hlen, hcast]
        rw [if_neg hne]

/-! ## Hysteresis lemmas (single-foot machine, then lifted to the
two-foot detection loop). -/

lemma hystRun_cons (thr buf : ℤ) (flag : Bool) (v : ℤ) (vs : List ℤ) :
    hystRun thr buf flag (v :: vs) =
      (hystStep thr buf flag v).2 :: hystRun thr buf (hystStep thr buf flag v).1 vs := rfl

lemma hystStep_fired_gt {thr buf : ℤ} {flag : Bool} {v : ℤ}
    (h : (hystStep thr buf flag v).2 = true) : thr < v := by
  unfold hystStep at h
  simp only [Bool.and_eq_true, decide_eq_true_eq] at h
  exact h.2

lemma hystStep_fired_flag {thr buf : ℤ} {flag : Bool} {v : ℤ}
    (h : (hystStep thr buf flag v).2 = true) : (hystStep thr buf flag v).1 = true := by
  unfold hystStep at *
  simp only [Bool.or_eq_true]
  exact Or.inr h

lemma hystStep_flag_of_keep {thr buf : ℤ} {v : ℤ}
    (h : ¬ v ≤ thr - buf) : (hystStep thr buf true v).1 = true := by
  unfold hystStep
  simp [h]

/-- A foot only fires on a value strictly above the threshold. -/
lemma hystRun_fired_gt (thr buf : ℤ) :
    ∀ (vs : List ℤ) (flag : Bool) (i : ℕ),
      (hystRun thr buf flag vs)[i]? = some true →
      ∃ v, vs[i]? = some v ∧ thr < v := by
  intro vs
  induction vs with
  | nil => intro flag i h; simp [hystRun] at h
  | cons v vs ih =>
      intro flag i h
      cases i with
      | zero =>
          rw [hystRun_cons] at h
          simp only [List.getElem?_cons_zero, Option.some_inj] at h
          exact ⟨v, by simp, hystStep_fired_gt h⟩
      | succ i =>
          rw [hystRun_cons] at h
          simp only [List.getElem?_cons_succ] at h
          obtain ⟨w, hw, hgt⟩ := ih _ i h
          exact ⟨w, by simpa using hw, hgt⟩

/-- Starting from a set contact flag, a fire can only happen after the
value has dropped to `threshold - pressureBuffer` or below. -/
lemma hystRun_true_fired_drop (thr buf : ℤ) (hb : 0 < buf) :
    ∀ (vs : List ℤ) (i : ℕ),
      (hystRun thr buf true vs)[i]? = some true →
      ∃ j v, j < i ∧ vs[j]? = some v ∧ v ≤ thr - buf := by
  intro vs
  induction vs with
  | nil => intro i h; simp [hystRun] at h
  | cons v vs ih =>
      intro i h
      by_cases hd : v ≤ thr - buf
      · cases i with
        | zero =>
            rw [hystRun_cons] at h
            simp only [List.getElem?_cons_zero, Option.some_inj] at h
            have := hystStep_fired_gt h
            omega
        | succ i => exact ⟨0, v, by omega, by simp, hd⟩
      · cases i with
        | zero =>
            rw [hystRun_cons] at h
            simp only [List.getElem?_cons_zero, Option.some_inj] at h
            unfold hystStep at h
            simp [hd] at h
        | succ i =>
            rw [hystRun_cons] at h
            simp only [List.getElem?_cons_succ] at h
            rw [hystStep_flag_of_keep hd] at h
            obtain ⟨j, w, hj, hw, hle⟩ := ih i h
            exact ⟨j + 1, w, by omega, by simpa using hw, hle⟩

/-- Two fires on the same foot always have an intervening drop to
`threshold - pressureBuffer` or below, strictly between them. -/
lemma hystRun_two_fired_drop (thr buf : ℤ) (hb : 0 < buf) :
    ∀ (vs : List ℤ) (flag : Bool) (i k : ℕ), i < k →
      (hystRun thr buf flag vs)[i]? = some true →
      (hystRun thr buf flag vs)[k]? = some true →
      ∃ j v, i < j ∧ j < k ∧ vs[j]? = some v ∧ v ≤ thr - buf := by
  intro vs
  induction vs with
  | nil => intro flag i k hik h1 h2; simp [hystRun] at h1
  | cons v vs ih =>
      intro flag i k hik h1 h2
      cases i with
      | zero =>
          cases k with
          | zero => omega
          | succ k =>
              rw [hystRun_cons] at h1 h2
              simp only [List.getElem?_cons_zero, Option.some_inj] at h1
              simp only [List.getElem?_cons_succ] at h2
              rw [hystStep_fired_flag h1] at h2
              obtain ⟨j, w, hj, hw, hle⟩ := hystRun_true_fired_drop thr buf hb vs k h2
              exact ⟨j + 1, w, by omega, by omega, by simpa using hw, hle⟩
      | succ i =>
          cases k with
          | zero => omega
          | succ k =>
              rw [hystRun_cons] at h1 h2
              simp only [List.getElem?_cons_succ] at h1 h2
              obtain ⟨j, w, hj1, hj2, hw, hle⟩ := ih _ i k (by omega) h1 h2
              exact ⟨j + 1, w, by omega, by omega, by simpa using hw, hle⟩

/-- A fire happens only from a cleared contact flag: either no fire
preceded it at all (initial state), or the value dropped to
`threshold - pressureBuffer` or below at some point after which the foot
did not fire until this fire. -/
lemma hystRun_fired_crossing (thr buf : ℤ) (hb : 0 < buf) :
    ∀ (vs : List ℤ) (flag : Bool) (i : ℕ),
      (hystRun thr buf flag vs)[i]? = some true →
      (flag = false ∧ ∀ l, l < i → ¬((hystRun thr buf flag vs)[l]? = some true)) ∨
      (∃ j v, j < i ∧ vs[j]? = some v ∧ v ≤ thr - buf ∧
        ∀ l, j < l → l < i → ¬((hystRun thr buf flag vs)[l]? = some true)) := by
  intro vs
  induction vs with
  | nil => intro flag i h; simp [hystRun] at h
  | cons v vs ih =>
      intro flag i h
      cases i with
      | zero =>
          left
          rw [hystRun_cons] at h
          simp only [List.getElem?_cons_zero, Option.some_inj] at h
          have hgt := hystStep_fired_gt h
          have hd : ¬ v ≤ thr - buf := by omega
          unfold hystStep at h
          simp only [hd, if_false, Bool.and_eq_true, Bool.not_eq_true'] at h
          exact ⟨h.1, by omega⟩
      | succ i =>
          rw [hystRun_cons] at h
          simp only [List.getElem?_cons_succ] at h
          rcases ih (hystStep thr buf flag v).1 i h with ⟨hf1, hno⟩ | ⟨j, w, hj, hw, hle, hno⟩
          · -- the flag entering the tail is clear, and the tail did not
            -- fire before `i`; the head cycle did not fire either
            have hfired : (hystStep thr buf flag v).2 = false := by
              unfold hystStep at hf1 ⊢
              simp only at hf1 ⊢
              exact (Bool.or_eq_false_iff.mp hf1).2
            by_cases hd : v ≤ thr - buf
            · right
              refine ⟨0, v, by omega, by simp, hd, ?_⟩
              intro l hl0 hli
              cases l with
              | zero => omega
              | succ l =>
                  rw [hystRun_cons]
                  simp only [List.getElem?_cons_succ]
                  exact hno l (by omega)
            · left
              have hflag : flag = false := by
                unfold hystStep at hf1
                simp only [if_neg hd] at hf1
                exact (Bool.or_eq_false_iff.mp hf1).1
              refine ⟨hflag, ?_⟩
              intro l hl
              cases l with
              | zero =>
                  rw [hystRun_cons]
                  simp only [List.getElem?_cons_zero, Option.some_inj]
                  simp [hfired]
              | succ l =>
                  rw [hystRun_cons]
                  simp only [List.getElem?_cons_succ]
                  exact hno l (by omega)
          · right
            refine ⟨j + 1, w, by omega, by simpa using hw, hle, ?_⟩
            intro l hl1 hl2
            cases l with
            | zero => omega
            | succ l =>
                rw [hystRun_cons]
                simp only [List.getElem?_cons_succ]
                exact hno l (by omega) (by omega)

lemma detectCycle_firedR (thr buf : ℤ) (i : CycleIn) (st : DetectState) :
    (detectCycle thr buf i st).2.firedR = (hystStep thr buf st.rightFlag i.rv).2 := rfl

lemma detectCycle_firedL (thr buf : ℤ) (i : CycleIn) (st : DetectState) :
    (detectCycle thr buf i st).2.firedL = (hystStep thr buf st.leftFlag i.lv).2 := rfl

lemma detectCycle_rightFlag (thr buf : ℤ) (i : CycleIn) (st : DetectState) :
    (detectCycle thr buf i st).1.rightFlag = (hystStep thr buf st.rightFlag i.rv).1 := rfl

lemma detectCycle_leftFlag (thr buf : ℤ) (i : CycleIn) (st : DetectState) :
    (detectCycle thr buf i st).1.leftFlag = (hystStep thr buf st.leftFlag i.lv).1 := rfl

/-- The right-foot firing column of the full detection loop is exactly
the single-foot hysteresis machine run on the right filtered values. -/
lemma detectRun_map_firedR (thr buf : ℤ) :
    ∀ (ins : List CycleIn) (st : DetectState),
      (detectRun thr buf st ins).map CycleOut.firedR =
        hystRun thr buf st.rightFlag (ins.map CycleIn.rv) := by
  intro ins
  induction ins with
  | nil => intro st; rfl
  | cons i is ih =>
      intro st
      show (detectCycle thr buf i st).2.firedR :: _ = _ :: _
      rw [detectCycle_firedR, ih, detectCycle_rightFlag]

/-- The left-foot firing column of the full detection loop is exactly
the single-foot hysteresis machine run on the left filtered values. -/
lemma detectRun_map_firedL (thr buf : ℤ) :
    ∀ (ins : List CycleIn) (st : DetectState),
      (detectRun thr buf st ins).map CycleOut.firedL =
        hystRun thr buf st.leftFlag (ins.map CycleIn.lv) := by
  intro ins
  induction ins with
  | nil => intro st; rfl
  | cons i is ih =>
      intro st
      show (detectCycle thr buf i st).2.firedL :: _ = _ :: _
      rw [detectCycle_firedL, ih, detectCycle_leftFlag]

/-- `sent` in terms of the same cycle's firing flags: a packet goes out
iff a foot fired and the refractory window has elapsed, and it names the
left foot whenever the left foot fired (the left branch overwrites
`stepFootId`). -/
lemma detectCycle_sent_eq (thr buf : ℤ) (i : CycleIn) (st : DetectState) :
    (detectCycle thr buf i st).2.sent =
      (if ((detectCycle thr buf i st).2.firedR || (detectCycle thr buf i st).2.firedL) &&
          decide (120 ≤ u32sub i.now st.lastStepSentTime) then
        some ⟨u32sub i.now st.lastStepTime,
              if (detectCycle thr buf i st).2.firedL then 2
              else if (detectCycle thr buf i st).2.firedR then 1 else 0⟩
      else none) := rfl

lemma detectCycle_sent_foot (thr buf : ℤ) (i : CycleIn) (st : DetectState)
    (pkt : StepPkt) (h : (detectCycle thr buf i st).2.sent = some pkt) :
    (pkt.footId = 1 → (detectCycle thr buf i st).2.firedR = true ∧
        (detectCycle thr buf i st).2.firedL = false) ∧
    (pkt.footId = 2 → (detectCycle thr buf i st).2.firedL = true) := by
  rw [detectCycle_sent_eq] at h
  by_cases hsend : (((detectCycle thr buf i st).2.firedR ||
      (detectCycle thr buf i st).2.firedL) &&
      decide (120 ≤ u32sub i.now st.lastStepSentTime)) = true
  · rw [if_pos hsend] at h
    simp only [Option.some_inj] at h
    subst h
    dsimp only
    constructor
    · intro hfoot
      by_cases heL : (detectCycle thr buf i st).2.firedL = true
      · rw [if_pos heL] at hfoot
        exact absurd hfoot (by norm_num)
      · rw [if_neg heL] at hfoot
        by_cases heR : (detectCycle thr buf i st).2.firedR = true
        · exact ⟨heR, by simpa using heL⟩
        · rw [if_neg heR] at hfoot
          exact absurd hfoot (by norm_num)
    · intro hfoot
      by_cases heL : (detectCycle thr buf i st).2.firedL = true
      · exact heL
      · rw [if_neg heL] at hfoot
        by_cases heR : (detectCycle thr buf i st).2.firedR = true
        · rw [if_pos heR] at hfoot
          exact absurd hfoot (by norm_num)
        · rw [if_neg heR] at hfoot
          exact absurd hfoot (by norm_num)
  · rw [if_neg hsend] at h
    exact absurd h (by simp)

/-- A sent step packet names a foot whose crossing condition fired in
that same cycle (and a right-foot packet means the left foot did not
fire, since a left fire overwrites `stepFootId`). -/
lemma detectRun_sent_foot (thr buf : ℤ) :
    ∀ (ins : List CycleIn) (st : DetectState) (n : ℕ) (o : CycleOut) (pkt : StepPkt),
      (detectRun thr buf st ins)[n]? = some o → o.sent = some pkt →
      (pkt.footId = 1 → o.firedR = true ∧ o.firedL = false) ∧
      (pkt.footId = 2 → o.firedL = true) := by
  intro ins
  induction ins with
  | nil => intro st n o pkt h; simp [detectRun] at h
  | cons i is ih =>
      intro st n o pkt h hs
      cases n with
      | zero =>
          simp only [detectRun, List.getElem?_cons_zero, Option.some_inj] at h
          subst h
          exact detectCycle_sent_foot thr buf i st pkt hs
      | succ n =>
          simp only [detectRun, List.getElem?_cons_succ] at h
          exact ih _ n o pkt h hs

/-! ## Buffer lemmas: reachable states and what the averaging walk reads. -/

lemma foldl_add_props (l : List StepEvent) :
    ∀ b : StepBuffer, b.head < MAX_WINDOW_SIZE → b.count ≤ MAX_WINDOW_SIZE →
      (l.foldl StepBuffer.add b).history.length = b.history.length ∧
      (l.foldl StepBuffer.add b).head = (b.head + l.length) % MAX_WINDOW_SIZE ∧
      (l.foldl StepBuffer.add b).count = min (b.count + l.length) MAX_WINDOW_SIZE := by
  induction l with
  | nil =>
      intro b hh hc
      refine ⟨rfl, ?_, ?_⟩
      · simp [Nat.mod_eq_of_lt hh]
      · simp [Nat.min_eq_left hc]
  | cons e l ih =>
      intro b hh hc
      have hh' : (b.add e).head < MAX_WINDOW_SIZE := Nat.mod_lt _ (by norm_num [MAX_WINDOW_SIZE])
      have hc' : (b.add e).count ≤ MAX_WINDOW_SIZE := by
        unfold StepBuffer.add
        dsimp only
        split <;> omega
      obtain ⟨h1, h2, h3⟩ := ih (b.add e) hh' hc'
      refine ⟨?_, ?_, ?_⟩
      · simpa [StepBuffer.add] using h1
      · rw [List.foldl_cons, h2]
        unfold StepBuffer.add
        dsimp only
        rw [List.length_cons]
        simp only [MAX_WINDOW_SIZE] at hh hc ⊢
        omega
      · rw [List.foldl_cons, h3]
        unfold StepBuffer.add
        dsimp only
        rw [List.length_cons]
        simp only [MAX_WINDOW_SIZE] at hh hc ⊢
        split <;> omega

lemma ofList_history_length (l : List StepEvent) :
    (StepBuffer.ofList l).history.length = MAX_WINDOW_SIZE := by
  have := foldl_add_props l StepBuffer.empty (by norm_num [StepBuffer.empty, MAX_WINDOW_SIZE])
    (by norm_num [StepBuffer.empty])
  simpa [StepBuffer.ofList, StepBuffer.empty] using this.1

lemma ofList_head (l : List StepEvent) :
    (StepBuffer.ofList l).head = l.length % MAX_WINDOW_SIZE := by
  have := foldl_add_props l StepBuffer.empty (by norm_num [StepBuffer.empty, MAX_WINDOW_SIZE])
    (by norm_num [StepBuffer.empty])
  simpa [StepBuffer.ofList, StepBuffer.empty] using this.2.1

lemma ofList_count (l : List StepEvent) :
    (StepBuffer.ofList l).count = min l.length MAX_WINDOW_SIZE := by
  have := foldl_add_props l StepBuffer.empty (by norm_num [StepBuffer.empty, MAX_WINDOW_SIZE])
    (by norm_num [StepBuffer.empty])
  simpa [StepBuffer.ofList, StepBuffer.empty] using this.2.2

/-- A walk of at most 19 steps starting just below slot `p` never reads
slot `p`, so overwriting slot `p` does not change what it collects. -/
lemma collectLoop_set_avoid (hist : List StepEvent) (p : ℕ) (e : StepEvent) (_hp : p < 20) :
    ∀ (k j : ℕ), j + k ≤ 19 →
      collectLoop (hist.set p e) ((p + (20 - j)) % 20) k =
        collectLoop hist ((p + (20 - j)) % 20) k := by
  intro k
  induction k with
  | zero => intro j hj; rfl
  | succ k ih =>
      intro j hj
      unfold collectLoop
      dsimp only
      have hidx : ((p + (20 - j)) % 20 + (MAX_WINDOW_SIZE - 1)) % MAX_WINDOW_SIZE =
          (p + (20 - (j + 1))) % 20 := by
        simp only [MAX_WINDOW_SIZE]
        omega
      rw [hidx]
      have hne : (p + (20 - (j + 1))) % 20 ≠ p := by
        omega
      rw [List.getD_eq_getElem?_getD, List.getElem?_set_ne (fun h => hne h.symm),
        ← List.getD_eq_getElem?_getD, ih (j + 1) (by omega)]

/-- On a reachable buffer (built by `add`s from the boot state), the
backward walk of length `k ≤ min(count, 20)` reads exactly the last `k`
added events, newest first. -/
lemma collect_ofList (l : List StepEvent) :
    ∀ k, k ≤ min l.length MAX_WINDOW_SIZE →
      collectLoop (StepBuffer.ofList l).history (StepBuffer.ofList l).head k =
        (l.reverse.take k).map StepEvent.intervalMS := by
  induction l using List.reverseRecOn with
  | nil =>
      intro k hk
      have hk0 : k = 0 := by
        simp only [List.length_nil, MAX_WINDOW_SIZE] at hk
        omega
      subst hk0
      rfl
  | append_singleton l e ih =>
      intro k hk
      cases k with
      | zero => rfl
      | succ k =>
          have hofl : StepBuffer.ofList (l ++ [e]) = (StepBuffer.ofList l).add e := by
            simp [StepBuffer.ofList, List.foldl_append]
          have hlen := ofList_history_length l
          have hhead := ofList_head l
          have hheadlt : (StepBuffer.ofList l).head < 20 := by
            rw [hhead]; exact Nat.mod_lt _ (by norm_num [MAX_WINDOW_SIZE])
          rw [hofl]
          unfold StepBuffer.add
          dsimp only
          unfold collectLoop
          dsimp only
          have hidx : (((StepBuffer.ofList l).head + 1) % MAX_WINDOW_SIZE +
              (MAX_WINDOW_SIZE - 1)) % MAX_WINDOW_SIZE = (StepBuffer.ofList l).head := by
            simp only [MAX_WINDOW_SIZE]
            omega
          rw [hidx]
          have hread : ((StepBuffer.ofList l).history.set (StepBuffer.ofList l).head e).getD
              (StepBuffer.ofList l).head ⟨0, 0⟩ = e := by
            rw [List.getD_eq_getElem?_getD, List.getElem?_set_self',
              List.getElem?_eq_getElem (by rw [hlen]; exact hheadlt)]
            rfl
          rw [hread]
          have havoid : collectLoop ((StepBuffer.ofList l).history.set
                (StepBuffer.ofList l).head e) (StepBuffer.ofList l).head k =
              collectLoop (StepBuffer.ofList l).history (StepBuffer.ofList l).head k := by
            have h20 : ((StepBuffer.ofList l).head + (20 - 0)) % 20 = (StepBuffer.ofList l).head := by
              omega
            have := collectLoop_set_avoid (StepBuffer.ofList l).history
              (StepBuffer.ofList l).head e hheadlt k 0 (by
                simp only [List.length_append, List.length_cons, List.length_nil,
                  MAX_WINDOW_SIZE] at hk
                omega)
            rwa [h20] at this
          rw [havoid]
          rw [ih k (by
            simp only [List.length_append, List.length_cons, List.length_nil,
              MAX_WINDOW_SIZE] at hk ⊢
            omega)]
          simp

/-! ## Spec-side facts about `bpmOfIntervals`. -/

lemma bpmOfIntervals_zero_sum (l : List ℕ) (h : l.sum % U32 = 0) :
    bpmOfIntervals l = 0 := by
  unfold bpmOfIntervals
  by_cases h0 : l.length = 0
  · simp [h0]
  · simp [h0, h]

lemma bpmOfIntervals_of_sum (l : List ℕ) (h0 : l.length ≠ 0) (hlt : l.sum < U32)
    (hne : l.sum ≠ 0) :
    bpmOfIntervals l = 60000 / ((l.sum : ℚ) / (l.length : ℚ)) := by
  unfold bpmOfIntervals
  dsimp only
  rw [Nat.mod_eq_of_lt hlt]
  have hq : ((l.sum : ℚ) / (l.length : ℚ)) ≠ 0 := by
    rw [div_ne_zero_iff]
    constructor
    · exact_mod_cast hne
    · exact_mod_cast h0
  rw [if_neg h0, if_neg hq]

lemma averagedEntries_length (b : StepBuffer) (n : ℤ) (hn : 0 ≤ n) :
    (b.averagedEntries n).length = min n.toNat b.count := by
  unfold StepBuffer.averagedEntries
  rw [collectLoop_length]
  unfold StepBuffer.effectiveN
  split <;> omega

lemma effectiveN_toNat (b : StepBuffer) (n : ℤ) (hn : 0 ≤ n) :
    (b.effectiveN n).toNat = min n.toNat b.count := by
  unfold StepBuffer.effectiveN
  split <;> omega

/-! ## Claims. -/

/-- C1 (counterexample): on the reachable buffer holding a single entry
with `intervalMs = 0`, `getAverageBPM 3` returns `0` — the claim's
"returns the previously cached BPM value, never 0" is false on the code;
indeed `getAverageBPM` never consults the cached `lastCalculatedBPM`
(the cache is not an input of the function), and on a zero interval sum
it hits the `avg == 0` guard and returns `0.0`. -/
theorem c1_counterexample :
    (StepBuffer.ofList [⟨0, 1⟩]).getAverageBPM 3 = 0 := by
  rw [getAverageBPM_eq]
  apply bpmOfIntervals_zero_sum
  decide

/-- C1 (amended): for every buffer state whose `min(n, count)` most
recent entries all have `intervalMs = 0`, `getAverageBPM n` returns `0`
(the division is guarded, so it is never NaN), not the previously cached
BPM. -/
theorem c1_zero_intervals_zero (b : StepBuffer) (n : ℤ)
    (_hn : 1 ≤ n) (_hc : 1 ≤ b.count)
    (hz : ∀ x ∈ b.averagedEntries n, x = 0) :
    b.getAverageBPM n = 0 := by
  rw [getAverageBPM_eq]
  refine bpmOfIntervals_zero_sum _ ?_
  rw [List.sum_eq_zero hz]
  rfl

/-- C1 witness: the amended statement evaluated on a concrete reachable
buffer with two zero-interval entries. -/
theorem c1_zero_intervals_zero_witness :
    1 ≤ (StepBuffer.ofList [⟨0, 1⟩, ⟨0, 2⟩]).count ∧
    (StepBuffer.ofList [⟨0, 1⟩, ⟨0, 2⟩]).getAverageBPM 5 = 0 :=
  ⟨by decide, c1_zero_intervals_zero _ 5 (by norm_num) (by decide) (by decide)⟩

/-- C5 (counterexample): the `uint32_t` running sum wraps modulo `2^32`.
On the reachable buffer holding intervals `[2^31, 2^31]`, the walked
entries are those two values and their mean is `2^31 ≠ 0`, yet
`getAverageBPM 2` returns `0` instead of `60000 / 2^31`: the claim's
"returns 60000 divided by that mean" fails on this state. -/
theorem c5_counterexample :
    (StepBuffer.ofList [⟨2147483648, 1⟩, ⟨2147483648, 2⟩]).averagedEntries 2 =
        [2147483648, 2147483648] ∧
    (StepBuffer.ofList [⟨2147483648, 1⟩, ⟨2147483648, 2⟩]).getAverageBPM 2 = 0 ∧
    ¬((StepBuffer.ofList [⟨2147483648, 1⟩, ⟨2147483648, 2⟩]).getAverageBPM 2 =
        60000 / (((2147483648 : ℚ) + 2147483648) / 2)) := by
  have h0 : (StepBuffer.ofList [⟨2147483648, 1⟩, ⟨2147483648, 2⟩]).getAverageBPM 2 = 0 := by
    rw [getAverageBPM_eq]
    apply bpmOfIntervals_zero_sum
    decide
  refine ⟨by decide, h0, ?_⟩
  rw [h0]
  norm_num

/-- C5 (amended): for every buffer state and `n ≥ 1`, `getAverageBPM n`
walks exactly the `m = min(n, count)` most recent entries backward from
the newest (on a reachable buffer these are precisely the last `m` added
events, newest first), returns `0` on an empty buffer, and — provided
the 32-bit interval sum does not wrap (`sum < 2^32`) — returns
`60000 / mean` whenever that sum is non-zero. -/
theorem c5_average_structure (b : StepBuffer) (n : ℤ) (hn : 1 ≤ n) :
    (b.count = 0 → b.getAverageBPM n = 0) ∧
    (b.averagedEntries n).length = min n.toNat b.count ∧
    (∀ l : List StepEvent, b = StepBuffer.ofList l →
      b.averagedEntries n =
        (l.reverse.take (min n.toNat b.count)).map StepEvent.intervalMS) ∧
    (1 ≤ b.count → (b.averagedEntries n).sum < U32 → (b.averagedEntries n).sum ≠ 0 →
      b.getAverageBPM n =
        60000 / (((b.averagedEntries n).sum : ℚ) / ((min n.toNat b.count : ℕ) : ℚ))) := by
  refine ⟨?_, ?_, ?_, ?_⟩
  · intro h
    simp [StepBuffer.getAverageBPM, h]
  · exact averagedEntries_length b n (by omega)
  · intro l hl
    subst hl
    unfold StepBuffer.averagedEntries
    rw [effectiveN_toNat _ _ (by omega)]
    exact collect_ofList l _ (by rw [ofList_count]; omega)
  · intro hc hlt hne
    rw [getAverageBPM_eq,
      bpmOfIntervals_of_sum _ (by rw [averagedEntries_length b n (by omega)]; omega) hlt hne,
      averagedEntries_length b n (by omega)]

/-- C5 witness: the amended statement evaluated on a concrete reachable
buffer `[500, 500]` with `n = 3` (BPM 120). -/
theorem c5_average_structure_witness :
    1 ≤ (StepBuffer.ofList [⟨500, 1⟩, ⟨500, 2⟩]).count ∧
    (StepBuffer.ofList [⟨500, 1⟩, ⟨500, 2⟩]).getAverageBPM 3 =
      60000 / ((((StepBuffer.ofList [⟨500, 1⟩, ⟨500, 2⟩]).averagedEntries 3).sum : ℚ) /
        ((min (3 : ℤ).toNat (StepBuffer.ofList [⟨500, 1⟩, ⟨500, 2⟩]).count : ℕ) : ℚ)) :=
  ⟨by decide,
    (c5_average_structure _ 3 (by norm_num)).2.2.2 (by decide) (by decide) (by decide)⟩

/-- C6: `START` while not `sessionStarting` produces no reply and no
state change; `START` while `sessionStarting` clears the step history,
resets `stepCounter` and the cached BPM, sets `sessionStarted`, clears
`sessionStarting`, replies `ACK,START`, and the very next step event is
reported with `interval = 0` and `instantBpm = 0` and is not added to
the cadence estimator's buffer (which also clears `sessionStarted`). -/
theorem c6_start_semantics (now : ℕ) (s : GatewayState) :
    (s.sessionStarting = false → handleStart now s = (s, [])) ∧
    (s.sessionStarting = true →
      handleStart now s =
        ({ s with stepHistory := s.stepHistory.clear
                  sessionStarting := false
                  sessionStarted := true
                  sessionStartTime := now
                  stepCounter := 0
                  lastCalculatedBPM := 0 }, ["ACK,START"]) ∧
      ∀ (now2 : ℕ) (e : StepEvent),
        processStep now2 e (handleStart now s).1 =
          ({ (handleStart now s).1 with
              sessionStarted := false,
              lastStepRecvTime := now2 },
           { interval := 0, foot := e.footId, instantBpm := 0, avgBpm := 0 })) := by
  constructor
  · intro h
    simp [handleStart, h]
  · intro h
    constructor
    · simp [handleStart, h]
    · intro now2 e
      simp [handleStart, h, processStep, instantBpmOf]

/-- C6 witness: both branches evaluated at concrete states (the boot
state has `sessionStarting = true`). -/
theorem c6_start_semantics_witness :
    handleStart 5 { GatewayState.boot with sessionStarting := false } =
      ({ GatewayState.boot with sessionStarting := false }, []) ∧
    processStep 7 ⟨999, 1⟩ (handleStart 5 GatewayState.boot).1 =
      ({ (handleStart 5 GatewayState.boot).1 with
          sessionStarted := false,
          lastStepRecvTime := 7 },
       { interval := 0, foot := 1, instantBpm := 0, avgBpm := 0 }) :=
  ⟨(c6_start_semantics 5 _).1 rfl,
    ((c6_start_semantics 5 GatewayState.boot).2 rfl).2 7 ⟨999, 1⟩⟩

/-- C7: `SET_WINDOW,<n>` is accepted exactly when `0 < n ≤ 20`; on
accept the window becomes `n`, `updateStride` is clamped down to `n` if
it exceeded `n`, the live history is shrunk to at most `n` entries, and
the reply is `ACK,WINDOW,<n>`; on reject nothing changes and nothing is
printed; and after an accepted `SET_WINDOW,w` every `getAverageBPM` call
made with the new window walks at most `w` entries, whatever the buffer
then holds. -/
theorem c7_set_window_semantics (val : ℤ) (s : GatewayState) :
    (0 < val ∧ val ≤ 20 →
      handleSetWindow val s =
        ({ s with smoothingWindow := val
                  updateStride := if s.updateStride > val then val else s.updateStride
                  stepHistory := s.stepHistory.trimToSize val },
         [("ACK,WINDOW,") ++ toString val]) ∧
      ((s.stepHistory.trimToSize val).count : ℤ) ≤ val ∧
      (∀ b : StepBuffer,
        ((b.averagedEntries (handleSetWindow val s).1.smoothingWindow).length : ℤ) ≤ val)) ∧
    (¬(0 < val ∧ val ≤ 20) → handleSetWindow val s = (s, [])) := by
  constructor
  · intro h
    refine ⟨by simp [handleSetWindow, h], ?_, ?_⟩
    · unfold StepBuffer.trimToSize
      split
      · dsimp only
        omega
      · omega
    · intro b
      have hwin : (handleSetWindow val s).1.smoothingWindow = val := by
        simp [handleSetWindow, h]
      rw [hwin, averagedEntries_length b val (by omega)]
      omega
  · intro h
    simp [handleSetWindow, h]

/-- C7 witness: accept at `n = 5` (window set, reply printed) and reject
at `n = 25` (no change, no reply), on the boot state. -/
theorem c7_set_window_semantics_witness :
    handleSetWindow 5 GatewayState.boot =
      ({ GatewayState.boot with
          smoothingWindow := 5,
          updateStride := if GatewayState.boot.updateStride > 5 then 5
            else GatewayState.boot.updateStride,
          stepHistory := GatewayState.boot.stepHistory.trimToSize 5 },
       [("ACK,WINDOW,") ++ toString (5 : ℤ)]) ∧
    ((GatewayState.boot.stepHistory.trimToSize 5).count : ℤ) ≤ 5 ∧
    handleSetWindow 25 GatewayState.boot = (GatewayState.boot, []) :=
  ⟨((c7_set_window_semantics 5 GatewayState.boot).1 (by norm_num)).1,
   ((c7_set_window_semantics 5 GatewayState.boot).1 (by norm_num)).2.1,
   (c7_set_window_semantics 25 GatewayState.boot).2 (by norm_num)⟩

/-- C4: a received `CalibrateWeight` packet (margin `≤ 0` replaced by
150) with per-foot sample averages `avgR`, `avgL` (ADC readings, hence
`≤ 4095`) sets `threshold = max(300, max(avgR, avgL) - margin)` and
`pressureBuffer = max(200, threshold / 2)`, and replies with a Control
packet whose `arg` equals the new threshold, which is always `≥ 300`. -/
theorem c4_calibrate_weight (p : Ctrl) (rs ls : List ℕ) (st : SensorCal)
    (hcmd : p.cmd = 1) (hlr : rs.length = 200) (hll : ls.length = 200)
    (hbr : ∀ x ∈ rs, x ≤ 4095) (hbl : ∀ x ∈ ls, x ≤ 4095) :
    (processControl p rs ls st).1.threshold =
      max 300 ((max ((rs.sum / rs.length : ℕ) : ℤ) ((ls.sum / rs.length : ℕ) : ℤ)) -
        (if p.arg ≤ 0 then 150 else p.arg)) ∧
    (processControl p rs ls st).1.pressureBuffer =
      max 200 ((processControl p rs ls st).1.threshold / 2) ∧
    (processControl p rs ls st).2 = ⟨1, (processControl p rs ls st).1.threshold⟩ ∧
    300 ≤ (processControl p rs ls st).2.arg := by
  have hsumR : rs.sum ≤ 200 * 4095 := by
    have h := List.sum_le_card_nsmul rs 4095 hbr
    rw [hlr] at h
    simpa [smul_eq_mul] using h
  have hsumL : ls.sum ≤ 200 * 4095 := by
    have h := List.sum_le_card_nsmul ls 4095 hbl
    rw [hll] at h
    simpa [smul_eq_mul] using h
  have havgR : rs.sum / rs.length ≤ 4095 := by
    rw [hlr]; omega
  have havgL : ls.sum / rs.length ≤ 4095 := by
    rw [hlr]; omega
  have hpc : processControl p rs ls st =
      ((calibrateWeight rs ls (if p.arg ≤ 0 then 150 else p.arg) 300 st).1,
       ⟨1, int16ofInt (calibrateWeight rs ls (if p.arg ≤ 0 then 150 else p.arg) 300 st).2⟩) := by
    unfold processControl
    rw [if_pos hcmd]
  have hm : 1 ≤ (if p.arg ≤ 0 then 150 else p.arg) := by
    split <;> omega
  have hcw : calibrateWeight rs ls (if p.arg ≤ 0 then 150 else p.arg) 300 st =
      ({ threshold := max 300 ((max ((rs.sum / rs.length : ℕ) : ℤ)
            ((ls.sum / rs.length : ℕ) : ℤ)) - (if p.arg ≤ 0 then 150 else p.arg))
         pressureBuffer := max 200 ((max 300 ((max ((rs.sum / rs.length : ℕ) : ℤ)
            ((ls.sum / rs.length : ℕ) : ℤ)) - (if p.arg ≤ 0 then 150 else p.arg))) / 2) },
       max 300 ((max ((rs.sum / rs.length : ℕ) : ℤ)
         ((ls.sum / rs.length : ℕ) : ℤ)) - (if p.arg ≤ 0 then 150 else p.arg))) := rfl
  have hthr_lb : 300 ≤ max (300 : ℤ) ((max ((rs.sum / rs.length : ℕ) : ℤ)
      ((ls.sum / rs.length : ℕ) : ℤ)) - (if p.arg ≤ 0 then 150 else p.arg)) :=
    le_max_left _ _
  have hthr_ub : max (300 : ℤ) ((max ((rs.sum / rs.length : ℕ) : ℤ)
      ((ls.sum / rs.length : ℕ) : ℤ)) - (if p.arg ≤ 0 then 150 else p.arg)) ≤ 4095 := by
    rw [max_le_iff]
    constructor
    · norm_num
    · have : (max ((rs.sum / rs.length : ℕ) : ℤ) ((ls.sum / rs.length : ℕ) : ℤ)) ≤ 4095 := by
        rw [max_le_iff]
        constructor <;> [exact_mod_cast havgR; exact_mod_cast havgL]
      omega
  have hwrap : int16ofInt (max (300 : ℤ) ((max ((rs.sum / rs.length : ℕ) : ℤ)
      ((ls.sum / rs.length : ℕ) : ℤ)) - (if p.arg ≤ 0 then 150 else p.arg))) =
      max (300 : ℤ) ((max ((rs.sum / rs.length : ℕ) : ℤ)
        ((ls.sum / rs.length : ℕ) : ℤ)) - (if p.arg ≤ 0 then 150 else p.arg)) := by
    unfold int16ofInt
    omega
  rw [hpc, hcw]
  dsimp only
  rw [hwrap]
  exact ⟨rfl, rfl, rfl, hthr_lb⟩

/-- C4 witness: 200 samples of 1800 on each foot with margin 150 yield
`threshold = 1650`, `pressureBuffer = 825`, and the reply carries 1650. -/
theorem c4_calibrate_weight_witness :
    (processControl ⟨1, 150⟩ (List.replicate 200 1800) (List.replicate 200 1800)
        SensorCal.boot).1.threshold = 1650 ∧
    (processControl ⟨1, 150⟩ (List.replicate 200 1800) (List.replicate 200 1800)
        SensorCal.boot).1.pressureBuffer = 825 ∧
    (processControl ⟨1, 150⟩ (List.replicate 200 1800) (List.replicate 200 1800)
        SensorCal.boot).2 = ⟨1, 1650⟩ := by
  have h := c4_calibrate_weight ⟨1, 150⟩ (List.replicate 200 1800)
    (List.replicate 200 1800) SensorCal.boot rfl (List.length_replicate 200 1800)
    (List.length_replicate 200 1800)
    (by intro x hx; rw [List.eq_of_mem_replicate hx]; norm_num)
    (by intro x hx; rw [List.eq_of_mem_replicate hx]; norm_num)
  have hval : max (300 : ℤ)
      ((max (((List.replicate 200 1800).sum / (List.replicate 200 1800).length : ℕ) : ℤ)
        (((List.replicate 200 1800).sum / (List.replicate 200 1800).length : ℕ) : ℤ)) -
        (if (150 : ℤ) ≤ 0 then 150 else 150)) = 1650 := by
    norm_num [List.sum_replicate]
  refine ⟨?_, ?_, ?_⟩
  · rw [h.1, hval]
  · rw [h.2.1, h.1, hval]
    norm_num
  · rw [h.2.2.1, h.1, hval]

/-- C10: every `CAL_WEIGHT…` host line makes the gateway print exactly
two lines, immediately and in this order: `ACK,CAL_WEIGHT` when handing
the control packet to the radio succeeded / `ERR,CAL_WEIGHT` when it
failed, then `ACK,CAL_WEIGHT,DISPATCHED`; the session state is untouched
and the dispatched packet carries `CalibrateWeight` with the (defaulted)
margin.  So an `ERR,CAL_WEIGHT` line can reach the host from the
dispatch step itself, before any sensor-node reply. -/
theorem c10_cal_weight_two_lines (line : List Char) (parsedArg : ℤ) (ok : Bool)
    (now : ℕ) (s : GatewayState)
    (h : startsWithL line (("CAL_WEIGHT").toList) = true) :
    (processHostLine line parsedArg ok now s).2.1 =
      [if ok then "ACK,CAL_WEIGHT" else "ERR,CAL_WEIGHT", "ACK,CAL_WEIGHT,DISPATCHED"] ∧
    (processHostLine line parsedArg ok now s).1 = s ∧
    (processHostLine line parsedArg ok now s).2.2 =
      some ⟨1, if line.contains ',' then (if parsedArg ≤ 0 then 150 else parsedArg)
               else 150⟩ := by
  obtain ⟨c, cs, rfl⟩ : ∃ c cs, line = c :: cs := by
    cases line with
    | nil => exact absurd h (by decide)
    | cons c cs => exact ⟨c, cs, rfl⟩
  have hc : c = 'C' := by
    rw [show (("CAL_WEIGHT").toList) = 'C' :: (("AL_WEIGHT").toList) from rfl] at h
    simp only [startsWithL, Bool.and_eq_true, beq_iff_eq] at h
    exact h.1
  subst hc
  have h1 : ¬(('C' :: cs) = (("RESET").toList)) := by
    intro he
    rw [he] at h
    exact absurd h (by decide)
  have h2 : ¬(('C' :: cs) = (("START").toList)) := by
    intro he
    rw [he] at h
    exact absurd h (by decide)
  have h3 : ¬(startsWithL ('C' :: cs) (("SET_WINDOW,").toList) = true) := by
    intro hs
    rw [show (("SET_WINDOW,").toList) = 'S' :: (("ET_WINDOW,").toList) from rfl] at hs
    simp only [startsWithL, Bool.and_eq_true, beq_iff_eq] at hs
    exact absurd hs.1 (by decide)
  have h4 : ¬(startsWithL ('C' :: cs) (("SET_STRIDE,").toList) = true) := by
    intro hs
    rw [show (("SET_STRIDE,").toList) = 'S' :: (("ET_STRIDE,").toList) from rfl] at hs
    simp only [startsWithL, Bool.and_eq_true, beq_iff_eq] at hs
    exact absurd hs.1 (by decide)
  unfold processHostLine
  rw [if_neg h1, if_neg h2, if_neg h3, if_neg h4, if_pos h]
  unfold handleCalibrateWeight
  dsimp only
  exact ⟨rfl, rfl, rfl⟩

/-- C10 witness: both radio outcomes on the concrete line
`CAL_WEIGHT` produce the two reply lines in order. -/
theorem c10_cal_weight_two_lines_witness :
    (processHostLine (("CAL_WEIGHT").toList) 0 true 0 GatewayState.boot).2.1 =
      ["ACK,CAL_WEIGHT", "ACK,CAL_WEIGHT,DISPATCHED"] ∧
    (processHostLine (("CAL_WEIGHT").toList) 0 false 0 GatewayState.boot).2.1 =
      ["ERR,CAL_WEIGHT", "ACK,CAL_WEIGHT,DISPATCHED"] := by
  constructor
  · have h := (c10_cal_weight_two_lines (("CAL_WEIGHT").toList) 0 true 0
      GatewayState.boot (by decide)).1
    simpa using h
  · have h := (c10_cal_weight_two_lines (("CAL_WEIGHT").toList) 0 false 0
      GatewayState.boot (by decide)).1
    simpa using h

/-- C9: the gateway decoder ignores every received buffer (no shared
state written, nothing printed) unless its length is `sizeof(Packet) = 6`
or, as the bounded legacy exception, `sizeof(StepEvent) = 5` (read as a
raw `StepEvent`); 6-byte buffers dispatch purely on the type tag —
`MSG_STEP` and `MSG_BPM_DELTA` write the shared snapshot, `MSG_CMD` only
prints and leaves all shared state untouched, and an unknown tag is
silently dropped, never partially parsed. -/
theorem c9_decoder_length_gate (data : List ℕ) (sh : GatewayShared) :
    (data.length ≠ 6 → data.length ≠ 5 → onDataRecvG data sh = (sh, [])) ∧
    (data.length = 6 → data.getD 0 0 ≠ 1 → data.getD 0 0 ≠ 2 → data.getD 0 0 ≠ 3 →
      onDataRecvG data sh = (sh, [])) ∧
    (data.length = 6 → data.getD 0 0 = 1 →
      onDataRecvG data sh =
        ({ sh with
            currentStep := decodeStepEvent (data.drop 1),
            lastMsgType := 1,
            messageRecv := true }, [])) ∧
    (data.length = 6 → data.getD 0 0 = 2 →
      onDataRecvG data sh =
        ({ sh with
            lastDelta := int8ofByte (data.getD 1 0),
            lastMsgType := 2,
            messageRecv := true }, [])) ∧
    (data.length = 6 → data.getD 0 0 = 3 → (onDataRecvG data sh).1 = sh) ∧
    (data.length = 5 →
      onDataRecvG data sh =
        ({ sh with
            currentStep := decodeStepEvent data,
            lastMsgType := 1,
            messageRecv := true }, [])) := by
  refine ⟨?_, ?_, ?_, ?_, ?_, ?_⟩
  · intro h6 h5
    unfold onDataRecvG
    rw [if_neg (show ¬(data.length = sizeofPacket) from h6),
      if_neg (show ¬(data.length = sizeofStepEvent) from h5)]
  · intro h6 ht1 ht2 ht3
    unfold onDataRecvG
    rw [if_pos (show data.length = sizeofPacket from h6),
      if_neg (show ¬(data.getD 0 0 = 1) from ht1),
      if_neg (show ¬(data.getD 0 0 = 2) from ht2),
      if_neg (show ¬(data.getD 0 0 = 3) from ht3),
      if_neg (show ¬(data.length = sizeofStepEvent) from by rw [h6]; decide)]
  · intro h6 ht
    unfold onDataRecvG
    rw [if_pos (show data.length = sizeofPacket from h6),
      if_pos (show data.getD 0 0 = 1 from ht)]
  · intro h6 ht
    unfold onDataRecvG
    rw [if_pos (show data.length = sizeofPacket from h6),
      if_neg (show ¬(data.getD 0 0 = 1) from by rw [ht]; decide),
      if_pos (show data.getD 0 0 = 2 from ht)]
  · intro h6 ht
    unfold onDataRecvG
    rw [if_pos (show data.length = sizeofPacket from h6),
      if_neg (show ¬(data.getD 0 0 = 1) from by rw [ht]; decide),
      if_neg (show ¬(data.getD 0 0 = 2) from by rw [ht]; decide),
      if_pos (show data.getD 0 0 = 3 from ht)]
    dsimp only
    split
    · split <;> rfl
    · rfl
  · intro h5
    unfold onDataRecvG
    rw [if_neg (show ¬(data.length = sizeofPacket) from by rw [h5]; decide),
      if_pos (show data.length = sizeofStepEvent from h5)]

/-- C9 witness: a 3-byte buffer is dropped; a 6-byte buffer with the
unknown tag 7 is dropped; a 5-byte legacy buffer is read as a raw
`StepEvent`. -/
theorem c9_decoder_length_gate_witness :
    onDataRecvG [9, 9, 9] GatewayShared.boot = (GatewayShared.boot, []) ∧
    onDataRecvG [7, 1, 2, 3, 4, 5] GatewayShared.boot = (GatewayShared.boot, []) ∧
    onDataRecvG [244, 1, 0, 0, 2] GatewayShared.boot =
      ({ GatewayShared.boot with
          currentStep := ⟨500, 2⟩,
          lastMsgType := 1,
          messageRecv := true }, []) := by
  refine ⟨(c9_decoder_length_gate [9, 9, 9] GatewayShared.boot).1 (by decide) (by decide),
    (c9_decoder_length_gate [7, 1, 2, 3, 4, 5] GatewayShared.boot).2.1 (by decide)
      (by decide) (by decide) (by decide), ?_⟩
  have h := (c9_decoder_length_gate [244, 1, 0, 0, 2] GatewayShared.boot).2.2.2.2.2
    (by decide)
  rw [h]
  decide

/-- C3 (counterexample): the sensor node answers a Control packet with
unknown `cmd = 2` by echoing `⟨2, -1⟩`, but the gateway prints nothing
on receiving that reply (its `ERR,CAL_WEIGHT` branch requires the echoed
`cmd` to be `CMD_CAL_WEIGHT = 1`), so no `ERR,CAL_WEIGHT` line reaches
the host — the claim's forwarding half is false. -/
theorem c3_counterexample :
    (processControl ⟨2, 0⟩ [] [] SensorCal.boot).2 = ⟨2, -1⟩ ∧
    onDataRecvG (encodeCtrlPacket 2 (-1)) GatewayShared.boot = (GatewayShared.boot, []) ∧
    (onDataRecvG (encodeCtrlPacket 2 (-1)) GatewayShared.boot).2 ≠ ["ERR,CAL_WEIGHT"] := by
  refine ⟨by decide, by decide, ?_⟩
  intro h
  rw [show (onDataRecvG (encodeCtrlPacket 2 (-1)) GatewayShared.boot).2 = [] from by decide]
    at h
  exact absurd h (by decide)

/-- C3 (amended): a Control packet whose `cmd` is not `CalibrateWeight`
makes the sensor node reply with an error (`arg = -1`) echoing that
command and leaves the calibration state untouched; the gateway,
however, forwards `ERR,CAL_WEIGHT` to the host only for control replies
whose `cmd` equals `CalibrateWeight` with a negative `arg` — an error
reply echoing any other command is silently dropped. -/
theorem c3_unknown_control (p : Ctrl) (rs ls : List ℕ) (st : SensorCal)
    (sh : GatewayShared) (h : p.cmd ≠ 1) (hb : p.cmd < 256) :
    (processControl p rs ls st).1 = st ∧
    (processControl p rs ls st).2 = ⟨p.cmd, -1⟩ ∧
    onDataRecvG (encodeCtrlPacket p.cmd (-1)) sh = (sh, []) ∧
    onDataRecvG (encodeCtrlPacket 1 (-1)) sh = (sh, ["ERR,CAL_WEIGHT"]) := by
  have hneg : int16ofInt (-1) = -1 := by decide
  have henc : encodeCtrlPacket p.cmd (-1) = [3, p.cmd % 256, 255, 255, 0, 0] := by
    have hb16 : bytesOfInt16 (-1) = (255, 255) := by decide
    unfold encodeCtrlPacket
    rw [hb16]
  refine ⟨?_, ?_, ?_, ?_⟩
  · unfold processControl
    rw [if_neg h]
  · unfold processControl
    rw [if_neg h, hneg]
  · rw [henc]
    have hmod : p.cmd % 256 = p.cmd := Nat.mod_eq_of_lt hb
    simp [onDataRecvG, sizeofPacket, sizeofStepEvent, hmod, h]
  · have henc1 : encodeCtrlPacket 1 (-1) = [3, 1, 255, 255, 0, 0] := by decide
    rw [henc1]
    simp [onDataRecvG, sizeofPacket, sizeofStepEvent, int16ofBytes]

/-- C3 witness: the amended statement at the concrete unknown command 2. -/
theorem c3_unknown_control_witness :
    (processControl ⟨2, 5⟩ [] [] SensorCal.boot).2 = ⟨2, -1⟩ ∧
    onDataRecvG (encodeCtrlPacket 2 (-1)) GatewayShared.boot =
      (GatewayShared.boot, []) ∧
    onDataRecvG (encodeCtrlPacket 1 (-1)) GatewayShared.boot =
      (GatewayShared.boot, ["ERR,CAL_WEIGHT"]) :=
  ⟨(c3_unknown_control ⟨2, 5⟩ [] [] SensorCal.boot GatewayShared.boot
      (by decide) (by decide)).2.1,
   (c3_unknown_control ⟨2, 5⟩ [] [] SensorCal.boot GatewayShared.boot
      (by decide) (by decide)).2.2.1,
   (c3_unknown_control ⟨2, 5⟩ [] [] SensorCal.boot GatewayShared.boot
      (by decide) (by decide)).2.2.2⟩

/-- C2 (counterexample): with boot state, threshold 1200 and hysteresis
band 600, both filtered values at 2000 in the same poll cycle (refractory
elapsed) make BOTH crossing conditions fire, yet exactly ONE step packet
is sent — and it names the LEFT foot (`footId = 2`), because the left
branch overwrites `stepFootId`; the claim's "two independent step events
… right foot first" is false. -/
theorem c2_counterexample :
    (detectCycle 1200 600 ⟨2000, 2000, 1000⟩ DetectState.boot).2 =
      { firedR := true, firedL := true, sent := some ⟨1000, 2⟩ } := by decide

/-- C2 (amended): whenever both feet cross the threshold in the same
poll cycle (both contact flags clear, both filtered values above the
threshold, refractory elapsed), the node produces exactly one step event
in that cycle, attributed to the left foot (the right foot's detection
is evaluated first but its `stepFootId` is overwritten); both contact
flags are set afterwards. -/
theorem c2_both_feet_single_event (thr buf : ℤ) (i : CycleIn) (st : DetectState)
    (hbuf : 0 ≤ buf) (hrf : st.rightFlag = false) (hlf : st.leftFlag = false)
    (hr : thr < i.rv) (hl : thr < i.lv)
    (hrefr : 120 ≤ u32sub i.now st.lastStepSentTime) :
    (detectCycle thr buf i st).2 =
      { firedR := true, firedL := true
        sent := some ⟨u32sub i.now st.lastStepTime, 2⟩ } ∧
    (detectCycle thr buf i st).1.rightFlag = true ∧
    (detectCycle thr buf i st).1.leftFlag = true := by
  have hnr : ¬ i.rv ≤ thr - buf := by omega
  have hnl : ¬ i.lv ≤ thr - buf := by omega
  unfold detectCycle
  dsimp only
  rw [if_neg hnr, if_neg hnl, hrf, hlf]
  simp [hr, hl, hrefr]

/-- C2 witness: the amended statement at the concrete counterexample
inputs. -/
theorem c2_both_feet_single_event_witness :
    (detectCycle 1200 600 ⟨2000, 2000, 1000⟩ DetectState.boot).2.sent =
      some ⟨1000, 2⟩ := by
  have h := c2_both_feet_single_event 1200 600 ⟨2000, 2000, 1000⟩ DetectState.boot
    (by norm_num) rfl rfl (by norm_num) (by norm_num) (by decide)
  rw [h.1]
  decide

/-- The per-foot temporal properties of the detection run, stated for an
arbitrary firing column (`proj`) whose run agrees with the single-foot
hysteresis machine on the selected filtered values (`sel`). -/
lemma getElem?_map_of {α β : Type} (f : α → β) (l : List α) (n : ℕ) (a : α)
    (h : l[n]? = some a) : (l.map f)[n]? = some (f a) := by
  rw [List.getElem?_map, h]
  rfl

lemma getElem?_map_some {α β : Type} (f : α → β) (l : List α) (n : ℕ) (b : β)
    (h : (l.map f)[n]? = some b) : ∃ a, l[n]? = some a ∧ f a = b := by
  rw [List.getElem?_map] at h
  cases hl : l[n]? with
  | none => rw [hl] at h; simp at h
  | some a =>
      rw [hl] at h
      simp only [Option.map_some'] at h
      exact ⟨a, rfl, Option.some_inj.mp h⟩

lemma detect_foot_props (thr buf : ℤ) (hbuf : 0 < buf)
    (outs : List CycleOut) (ins : List CycleIn)
    (proj : CycleOut → Bool) (sel : CycleIn → ℤ)
    (hmap : outs.map proj = hystRun thr buf false (ins.map sel)) :
    (∀ (n : ℕ) (o : CycleOut), outs[n]? = some o → proj o = true →
      ∃ inp : CycleIn, ins[n]? = some inp ∧ thr < sel inp) ∧
    (∀ (n k : ℕ) (o o2 : CycleOut), n < k → outs[n]? = some o → proj o = true →
      outs[k]? = some o2 → proj o2 = true →
      ∃ (j : ℕ) (inp : CycleIn), n < j ∧ j < k ∧ ins[j]? = some inp ∧
        sel inp ≤ thr - buf) ∧
    (∀ (n : ℕ) (o : CycleOut), outs[n]? = some o → proj o = true →
      (∀ (l : ℕ) (o2 : CycleOut), l < n → outs[l]? = some o2 → proj o2 = false) ∨
      (∃ (j : ℕ) (inp : CycleIn), j < n ∧ ins[j]? = some inp ∧ sel inp ≤ thr - buf ∧
        ∀ (l : ℕ) (o2 : CycleOut), j < l → l < n → outs[l]? = some o2 →
          proj o2 = false)) := by
  have hrun : ∀ (n : ℕ) (o : CycleOut), outs[n]? = some o →
      (hystRun thr buf false (ins.map sel))[n]? = some (proj o) := by
    intro n o h
    rw [← hmap]
    exact getElem?_map_of proj outs n o h
  refine ⟨?_, ?_, ?_⟩
  · intro n o ho hp
    have h1 := hrun n o ho
    rw [hp] at h1
    obtain ⟨v, hv, hgt⟩ := hystRun_fired_gt thr buf (ins.map sel) false n h1
    obtain ⟨inp, hinp, hfv⟩ := getElem?_map_some sel ins n v hv
    exact ⟨inp, hinp, hfv ▸ hgt⟩
  · intro n k o o2 hnk ho hp ho2 hp2
    have h1 := hrun n o ho
    rw [hp] at h1
    have h2 := hrun k o2 ho2
    rw [hp2] at h2
    obtain ⟨j, v, hj1, hj2, hv, hle⟩ :=
      hystRun_two_fired_drop thr buf hbuf (ins.map sel) false n k hnk h1 h2
    obtain ⟨inp, hinp, hfv⟩ := getElem?_map_some sel ins j v hv
    exact ⟨j, inp, hj1, hj2, hinp, hfv ▸ hle⟩
  · intro n o ho hp
    have h1 := hrun n o ho
    rw [hp] at h1
    rcases hystRun_fired_crossing thr buf hbuf (ins.map sel) false n h1 with
      ⟨hf, hno⟩ | ⟨j, v, hj, hv, hle, hno⟩
    · left
      intro l o2 hl ho2
      have h2 := hrun l o2 ho2
      cases hpo : proj o2 with
      | false => rfl
      | true =>
          rw [hpo] at h2
          exact absurd h2 (hno l hl)
    · right
      obtain ⟨inp, hinp, hfv⟩ := getElem?_map_some sel ins j v hv
      refine ⟨j, inp, hj, hinp, hfv ▸ hle, ?_⟩
      intro l o2 hjl hln ho2
      have h2 := hrun l o2 ho2
      cases hpo : proj o2 with
      | false => rfl
      | true =>
          rw [hpo] at h2
          exact absurd h2 (hno l hjl hln)

/-- C8: hysteresis of the step detector, over every input sequence from
the initial state (both contact flags clear) with a positive hysteresis
band.  For each foot: a crossing fires only on a value strictly above
the threshold; two fires on the same foot always have a strictly
intervening drop to `threshold - pressureBuffer` or below; and every
fire happens either before any other fire of that foot (initial state)
or after such a drop with no intervening fire (the hysteresis band).
A *sent* step packet names a foot that fired in that cycle, so two sent
packets for the same foot also enclose such a drop. -/
theorem c8_hysteresis_detection (thr buf : ℤ) (st : DetectState) (ins : List CycleIn)
    (hbuf : 0 < buf) (hrf : st.rightFlag = false) (hlf : st.leftFlag = false) :
    ((∀ (n : ℕ) (o : CycleOut), (detectRun thr buf st ins)[n]? = some o →
        CycleOut.firedR o = true →
        ∃ inp : CycleIn, ins[n]? = some inp ∧ thr < CycleIn.rv inp) ∧
      (∀ (n k : ℕ) (o o2 : CycleOut), n < k →
        (detectRun thr buf st ins)[n]? = some o → CycleOut.firedR o = true →
        (detectRun thr buf st ins)[k]? = some o2 → CycleOut.firedR o2 = true →
        ∃ (j : ℕ) (inp : CycleIn), n < j ∧ j < k ∧ ins[j]? = some inp ∧
          CycleIn.rv inp ≤ thr - buf) ∧
      (∀ (n : ℕ) (o : CycleOut), (detectRun thr buf st ins)[n]? = some o →
        CycleOut.firedR o = true →
        (∀ (l : ℕ) (o2 : CycleOut), l < n → (detectRun thr buf st ins)[l]? = some o2 →
          CycleOut.firedR o2 = false) ∨
        (∃ (j : ℕ) (inp : CycleIn), j < n ∧ ins[j]? = some inp ∧
          CycleIn.rv inp ≤ thr - buf ∧
          ∀ (l : ℕ) (o2 : CycleOut), j < l → l < n →
            (detectRun thr buf st ins)[l]? = some o2 → CycleOut.firedR o2 = false))) ∧
    ((∀ (n : ℕ) (o : CycleOut), (detectRun thr buf st ins)[n]? = some o →
        CycleOut.firedL o = true →
        ∃ inp : CycleIn, ins[n]? = some inp ∧ thr < CycleIn.lv inp) ∧
      (∀ (n k : ℕ) (o o2 : CycleOut), n < k →
        (detectRun thr buf st ins)[n]? = some o → CycleOut.firedL o = true →
        (detectRun thr buf st ins)[k]? = some o2 → CycleOut.firedL o2 = true →
        ∃ (j : ℕ) (inp : CycleIn), n < j ∧ j < k ∧ ins[j]? = some inp ∧
          CycleIn.lv inp ≤ thr - buf) ∧
      (∀ (n : ℕ) (o : CycleOut), (detectRun thr buf st ins)[n]? = some o →
        CycleOut.firedL o = true →
        (∀ (l : ℕ) (o2 : CycleOut), l < n → (detectRun thr buf st ins)[l]? = some o2 →
          CycleOut.firedL o2 = false) ∨
        (∃ (j : ℕ) (inp : CycleIn), j < n ∧ ins[j]? = some inp ∧
          CycleIn.lv inp ≤ thr - buf ∧
          ∀ (l : ℕ) (o2 : CycleOut), j < l → l < n →
            (detectRun thr buf st ins)[l]? = some o2 → CycleOut.firedL o2 = false))) ∧
    (∀ (n : ℕ) (o : CycleOut) (pkt : StepPkt),
      (detectRun thr buf st ins)[n]? = some o → CycleOut.sent o = some pkt →
      (StepPkt.footId pkt = 1 → CycleOut.firedR o = true ∧ CycleOut.firedL o = false) ∧
      (StepPkt.footId pkt = 2 → CycleOut.firedL o = true)) ∧
    (∀ (n k : ℕ) (o o2 : CycleOut) (pkt pkt2 : StepPkt), n < k →
      (detectRun thr buf st ins)[n]? = some o → CycleOut.sent o = some pkt →
      (detectRun thr buf st ins)[k]? = some o2 → CycleOut.sent o2 = some pkt2 →
      (StepPkt.footId pkt = 1 → StepPkt.footId pkt2 = 1 →
        ∃ (j : ℕ) (inp : CycleIn), n < j ∧ j < k ∧ ins[j]? = some inp ∧
          CycleIn.rv inp ≤ thr - buf) ∧
      (StepPkt.footId pkt = 2 → StepPkt.footId pkt2 = 2 →
        ∃ (j : ℕ) (inp : CycleIn), n < j ∧ j < k ∧ ins[j]? = some inp ∧
          CycleIn.lv inp ≤ thr - buf)) := by
  have hmR : (detectRun thr buf st ins).map CycleOut.firedR =
      hystRun thr buf false (ins.map CycleIn.rv) := by
    rw [detectRun_map_firedR, hrf]
  have hmL : (detectRun thr buf st ins).map CycleOut.firedL =
      hystRun thr buf false (ins.map CycleIn.lv) := by
    rw [detectRun_map_firedL, hlf]
  have hR := detect_foot_props thr buf hbuf (detectRun thr buf st ins) ins
    CycleOut.firedR CycleIn.rv hmR
  have hL := detect_foot_props thr buf hbuf (detectRun thr buf st ins) ins
    CycleOut.firedL CycleIn.lv hmL
  have hS := detectRun_sent_foot thr buf ins st
  refine ⟨hR, hL, fun n o pkt ho hs => hS n o pkt ho hs, ?_⟩
  intro n k o o2 pkt pkt2 hnk ho hso ho2 hso2
  constructor
  · intro hp1 hp2
    have hf1 := ((hS n o pkt ho hso).1 hp1).1
    have hf2 := ((hS k o2 pkt2 ho2 hso2).1 hp2).1
    exact hR.2.1 n k o o2 hnk ho hf1 ho2 hf2
  · intro hp1 hp2
    have hf1 := (hS n o pkt ho hso).2 hp1
    have hf2 := (hS k o2 pkt2 ho2 hso2).2 hp2
    exact hL.2.1 n k o o2 hnk ho hf1 ho2 hf2

/-- C8 witness: on the single-cycle input with the right filtered value
at 2000 (threshold 1200, band 600), the right-foot crossing fires and
the theorem yields that the input value exceeded the threshold. -/
theorem c8_hysteresis_detection_witness :
    ∃ inp : CycleIn, ([⟨2000, 100, 0⟩] : List CycleIn)[0]? = some inp ∧
      (1200 : ℤ) < inp.rv := by
  have h := c8_hysteresis_detection 1200 600 DetectState.boot
    [⟨2000, 100, 0⟩] (by norm_num) rfl rfl
  exact h.1.1 0 { firedR := true, firedL := false, sent := none } (by decide) rfl

end BrainMusic
